import Mathlib

/-!
Shallow embedding of `surveyor.py` (cb-response-surveyor): a Carbon Black
Response / ThreatHunter process-survey CLI.  The remote search backends,
the filesystem and the clock are modelled as an explicit environment of
pure functions; the script's side effects (opening the CSV, writing the
header and rows, issuing searches, logging skips and interrupts, closing
the file) are recorded as an event trace.
-/

/-- A deduplicated process record: `(endpoint, username, path, cmdline)`. -/
abbrev Tup := String × String × String × String

/-- A record returned by the ThreatHunter (cloud) backend: `proc.get(key)`
style dictionary access, each field possibly absent. -/
structure RecordTH where
  device_name : Option String
  process_username : Option String
  process_name : Option String
  process_cmdline : Option String

/-- A record returned by the Response (on-premises) backend: direct fields. -/
structure RecordR where
  hostname : String
  username : String
  path : String
  cmdline : String

/-- Python `str(x)` applied to `proc.get(key)`: an absent key gives the
literal string "None". -/
def pyStr : Option String → String
  | none => "None"
  | some s => s

/-- Python `s.lower()`, modelled character by character (ASCII case
folding). -/
def pyLower (s : String) : String :=
  String.mk (s.data.map Char.toLower)

/-- Python `s.strip()`: whitespace removed from both ends. -/
def pyStrip (s : String) : String :=
  String.mk
    (((s.data.dropWhile Char.isWhitespace).reverse.dropWhile
      Char.isWhitespace).reverse)

/-- The tuple collected for a cloud record (surveyor.py lines 74-77):
`str(...).lower()` on device name and username. -/
def recordToTupleTH (r : RecordTH) : Tup :=
  (pyLower (pyStr r.device_name), pyLower (pyStr r.process_username),
   pyStr r.process_name, pyStr r.process_cmdline)

/-- The tuple collected for an on-prem record (surveyor.py lines 81-84):
`hostname.lower()`, `username.lower()`. -/
def recordToTupleR (r : RecordR) : Tup :=
  (pyLower r.hostname, pyLower r.username, r.path, r.cmdline)

/-- How iterating one query's lazy record sequence ends: it runs to
completion, a KeyboardInterrupt arrives after `k` records were consumed,
or some other exception is raised after `k` records (and propagates). -/
inductive Outcome where
  | ok
  | interrupt (k : Nat)
  | exn (k : Nat)
deriving DecidableEq

/-- Observable events of a run: argparse error (exit 2), `err` +
`sys.exit(1)`, opening the output file, writing the header, issuing a
search with the final query string, logging a skipped untranslatable
query, logging a caught CTRL-C, writing the rows of one result set
(tagged with program and source columns), closing the output file. -/
inductive Ev where
  | argError
  | fatalError
  | openOut
  | header
  | search (q : String)
  | logSkip (q : String)
  | logInterrupt
  | rows (rs : Finset Tup) (program : String) (source : String)
  | closeOut
deriving DecidableEq

/-- How the process ends: `sys.exit c`, or termination by an exception
nobody caught. -/
inductive MRes where
  | exit (code : Nat)
  | uncaught
deriving DecidableEq

/-- The world outside the script: the clock (minutes since some epoch),
the `strftime` rendering of a start time, the cloud query translator
(`ServerError` modelled as `Except Unit`), the two backends' record
streams per final query string, how iteration of each query ends, file
existence, the `.json` files found by walking a directory, an IOC file's
`readlines`, and a definition file's parsed JSON content. -/
structure Env where
  now : Int
  fmt : Int → String
  thConvert : String → Except Unit String
  thRecords : String → List RecordTH
  rRecords : String → List RecordR
  outcome : String → Outcome
  fsExists : String → Bool
  walkJson : String → List String
  readLines : String → List String
  readDef : String → List (String × List (String × List String))

/-- surveyor.py `process_search` (lines 57-88).  Returns the emitted
events and the deduplicated result set, or (on a non-KeyboardInterrupt,
non-ServerError exception during iteration) the events before the
exception propagated.  For the cloud backend with `translate`, the query
is translated before the base fragment is appended; a translation failure
logs and returns the empty set.  A KeyboardInterrupt after `k` records
logs and returns the tuples collected so far. -/
def process_search (env : Env) (cbc : Bool) (query : String)
    (query_base : String) (translate : Bool) :
    Except (List Ev) (List Ev × Finset Tup) :=
  if cbc then
    match (if translate then env.thConvert query else .ok query) with
    | .error _ => .ok ([.logSkip query], ∅)
    | .ok q =>
      let fq := q ++ query_base
      let tups := (env.thRecords fq).map recordToTupleTH
      match env.outcome fq with
      | .ok => .ok ([.search fq], tups.toFinset)
      | .interrupt k => .ok ([.search fq, .logInterrupt], (tups.take k).toFinset)
      | .exn _ => .error [.search fq]
  else
    let fq := query ++ query_base
    let tups := (env.rRecords fq).map recordToTupleR
    match env.outcome fq with
    | .ok => .ok ([.search fq], tups.toFinset)
    | .interrupt k => .ok ([.search fq, .logInterrupt], (tups.take k).toFinset)
    | .exn _ => .error [.search fq]

/-- surveyor.py line 98: `'(' + ' OR '.join('%s:%s' % (search_field, term)
for term in terms) + ')'`. -/
def orJoin (field : String) (terms : List String) : String :=
  "(" ++ String.intercalate " OR " (terms.map (fun t => field ++ ":" ++ t)) ++ ")"

/-- The loop body of surveyor.py `nested_process_search` (lines 95-102):
fold over the criteria dict (insertion order), one search per field,
accumulating `results.update(...)`. -/
def nested_go (env : Env) (cbc : Bool) (query_base : String)
    (translate : Bool) :
    List (String × List String) → List Ev → Finset Tup →
    Except (List Ev) (List Ev × Finset Tup)
  | [], evs, acc => .ok (evs, acc)
  | (f, ts) :: rest, evs, acc =>
    match process_search env cbc (orJoin f ts) query_base translate with
    | .error e => .error (evs ++ e)
    | .ok (e, r) => nested_go env cbc query_base translate rest (evs ++ e) (acc ∪ r)

/-- surveyor.py `nested_process_search` (lines 91-102). -/
def nested_process_search (env : Env) (cbc : Bool)
    (criteria : List (String × List String)) (query_base : String)
    (translate : Bool) : Except (List Ev) (List Ev × Finset Tup) :=
  nested_go env cbc query_base translate criteria [] ∅

/-- Python truthiness of an `int` option: `None` and `0` are falsy. -/
def truthyInt : Option Int → Bool
  | none => false
  | some n => decide (n ≠ 0)

/-- Python truthiness of a `str` option: `None` and `""` are falsy. -/
def truthyStr : Option String → Bool
  | none => false
  | some s => !s.isEmpty

/-- Python `sub in s` substring test, on character lists. -/
def listContains (sub : List Char) : List Char → Bool
  | [] => sub.isEmpty
  | c :: cs => sub.isPrefixOf (c :: cs) || listContains sub cs

/-- Python `sub in s` substring test on strings. -/
def strContains (s sub : String) : Bool :=
  listContains sub.toList s.toList

/-- Python `os.path.basename`: the part after the last `/`. -/
def pyBasename (p : String) : String :=
  String.mk ((p.data.reverse.takeWhile (fun c => c ≠ '/')).reverse)

/-- Python `os.path.splitext(b)[0]`: strip the extension at the last dot,
where the leading dots of the name do not start an extension. -/
def pySplitextRoot (b : String) : String :=
  let cs := b.toList
  let lead := (cs.takeWhile (fun c => c = '.')).length
  let idxs := (List.range cs.length).filter
    (fun i => cs.getD i ' ' = '.' && lead ≤ i)
  match idxs.getLast? with
  | none => b
  | some i => String.mk (cs.take i)

/-- The time-window clause of `query_base` (surveyor.py lines 152-172):
under `--cbc`, `" process_start_time:[<strftime of now - delta> TO *]"`
with the delta in minutes (`days*1440` or `minutes`); on-prem,
`" start:-<minutes>m"`.  `--days` is tested first (`if`/`elif`). -/
def timeFragment (cbc : Bool) (fmt : Int → String) (now : Int)
    (days minutes : Option Int) : String :=
  if cbc then
    if truthyInt days then
      " process_start_time:[" ++ fmt (now - days.getD 0 * 1440) ++ " TO *]"
    else if truthyInt minutes then
      " process_start_time:[" ++ fmt (now - minutes.getD 0) ++ " TO *]"
    else ""
  else
    if truthyInt days then " start:-" ++ toString (days.getD 0 * 1440) ++ "m"
    else if truthyInt minutes then " start:-" ++ toString (minutes.getD 0) ++ "m"
    else ""

/-- The parsed argparse namespace (surveyor.py lines 106-142); flags the
claims never touch (--prefix, --profile) are omitted. -/
structure Args where
  cbc : Bool
  translate : Bool
  days : Option Int
  minutes : Option Int
  deffile : Option String
  defdir : Option String
  query : Option String
  iocfile : Option String
  hostname : Option String
  username : Option String
  ioctype : Option String

/-- How many of the four mutually exclusive criteria selectors were
supplied; argparse errors out unless exactly one is. -/
def selectorCount (a : Args) : Nat :=
  (if a.deffile.isSome then 1 else 0) + (if a.defdir.isSome then 1 else 0) +
  (if a.query.isSome then 1 else 0) + (if a.iocfile.isSome then 1 else 0)

/-- surveyor.py lines 154/166: the backend's host field name. -/
def hostKey (cbc : Bool) : String :=
  if cbc then "device_name" else "hostname"

/-- surveyor.py lines 155/167: the backend's user field name. -/
def userKey (cbc : Bool) : String :=
  if cbc then "process_username" else "username"

/-- surveyor.py lines 183-196: resolve the definition file list, exiting
with status 1 when the given path does not exist. -/
def defFilesStage (env : Env) (a : Args) :
    Except (List Ev × MRes) (List String) :=
  if truthyStr a.deffile then
    if env.fsExists (a.deffile.getD "") then .ok [a.deffile.getD ""]
    else .error ([.fatalError], .exit 1)
  else if truthyStr a.defdir then
    if env.fsExists (a.defdir.getD "") then .ok (env.walkJson (a.defdir.getD ""))
    else .error ([.fatalError], .exit 1)
  else .ok []

/-- surveyor.py lines 221-234: the per-IOC loop.  Each line is stripped,
turned into `<ioctype>:<ioc>`, searched, and its rows written with
program column the stripped indicator and source column "ioc". -/
def iocLoop (env : Env) (cbc translate : Bool) (qb ioctype : String) :
    List String → Except (List Ev) (List Ev)
  | [] => .ok []
  | line :: rest =>
    let ioc := pyStrip line
    match process_search env cbc (ioctype ++ ":" ++ ioc) qb translate with
    | .error e => .error e
    | .ok (e, rs) =>
      match iocLoop env cbc translate qb ioctype rest with
      | .error e2 => .error (e ++ [.rows rs ioc "ioc"] ++ e2)
      | .ok e2 => .ok (e ++ [.rows rs ioc "ioc"] ++ e2)

/-- surveyor.py lines 244-256: the per-program loop of one definition
file; rows are written with the top-level key as program column and the
file's label as source column. -/
def progLoop (env : Env) (cbc translate : Bool) (qb source : String) :
    List (String × List (String × List String)) →
    Except (List Ev) (List Ev)
  | [] => .ok []
  | (prog, criteria) :: rest =>
    match nested_process_search env cbc criteria qb translate with
    | .error e => .error e
    | .ok (e, rs) =>
      match progLoop env cbc translate qb source rest with
      | .error e2 => .error (e ++ [.rows rs prog source] ++ e2)
      | .ok e2 => .ok (e ++ [.rows rs prog source] ++ e2)

/-- surveyor.py lines 236-256: the definition-file loop; the source label
is the file's base name with the extension stripped. -/
def defLoop (env : Env) (cbc translate : Bool) (qb : String) :
    List String → Except (List Ev) (List Ev)
  | [] => .ok []
  | f :: rest =>
    let source := pySplitextRoot (pyBasename f)
    match progLoop env cbc translate qb source (env.readDef f) with
    | .error e => .error e
    | .ok e =>
      match defLoop env cbc translate qb rest with
      | .error e2 => .error (e ++ e2)
      | .ok e2 => .ok (e ++ e2)

/-- surveyor.py lines 205-256: the part of `main` after the output file
has been opened, dispatching on the criteria mode. -/
def mainBody (env : Env) (a : Args) (qb : String) (files : List String) :
    Except (List Ev) (List Ev) :=
  if truthyStr a.query then
    match process_search env a.cbc (a.query.getD "") qb a.translate with
    | .error e => .error e
    | .ok (e, rs) => .ok (e ++ [.rows rs (a.query.getD "") "query"])
  else if truthyStr a.iocfile then
    iocLoop env a.cbc a.translate qb (a.ioctype.getD "")
      (env.readLines (a.iocfile.getD ""))
  else
    defLoop env a.cbc a.translate qb files

namespace Surveyor

/-- surveyor.py lines 152-181: the accumulated `query_base` string —
the time-window clause, then the optional host constraint, then the
optional user constraint. -/
def queryBase (env : Env) (a : Args) : String :=
  let qb0 := timeFragment a.cbc env.fmt env.now a.days a.minutes
  let qb1 := if truthyStr a.hostname then
      qb0 ++ " " ++ hostKey a.cbc ++ ":" ++ a.hostname.getD "" else qb0
  if truthyStr a.username then
    qb1 ++ " " ++ userKey a.cbc ++ ":" ++ a.username.getD "" else qb1

/-- surveyor.py lines 198-260: open the output file, write the header,
run the body, close the file and return (exit 0); a propagating
exception from the body terminates the run with the file never
explicitly closed (the script has no try/finally around the body). -/
def mainTail (env : Env) (a : Args) (qb : String) (files : List String) :
    List Ev × MRes :=
  match mainBody env a qb files with
  | .error e => ([Ev.openOut, Ev.header] ++ e, .uncaught)
  | .ok e => ([Ev.openOut, Ev.header] ++ e ++ [Ev.closeOut], .exit 0)

/-- surveyor.py `main` (lines 105-260) as an event trace plus process
result.  Validation (argparse exclusivity, the pairing of --iocfile with
--ioctype, conflicts of --hostname and --username with a raw query,
definition path existence) happens before the output file is opened;
then the body runs with the accumulated base query. -/
def main (env : Env) (a : Args) : List Ev × MRes :=
  if selectorCount a ≠ 1 then ([.argError], .exit 2)
  else if a.iocfile.isSome && !a.ioctype.isSome then ([.argError], .exit 2)
  else if truthyStr a.hostname && truthyStr a.query
      && strContains (a.query.getD "") (hostKey a.cbc) then
    ([.argError], .exit 2)
  else if truthyStr a.username && truthyStr a.query
      && strContains (a.query.getD "") (userKey a.cbc) then
    ([.argError], .exit 2)
  else
    match defFilesStage env a with
    | .error r => r
    | .ok files => mainTail env a (queryBase env a) files

end Surveyor

/-- The union of the per-field result sets of one criteria group against
the on-prem backend, each field searched with the shared base fragment
appended. -/
def fieldResults (env : Env) (qb : String)
    (criteria : List (String × List String)) : Finset Tup :=
  criteria.foldr
    (fun c acc =>
      ((env.rRecords (orJoin c.1 c.2 ++ qb)).map recordToTupleR).toFinset ∪ acc)
    ∅

/-- Spec-side list of atoms of one field clause: the spec's
`field:term1`, `field:term2`, ... in input order. -/
def specAtoms (f : String) (ts : List String) : List String :=
  ts.map (fun t => f ++ ":" ++ t)

/-- Spec-side OR-joining: `atom1 OR atom2 OR ...`. -/
def specOr : List String → String
  | [] => ""
  | [a] => a
  | a :: b :: rest => a ++ " OR " ++ specOr (b :: rest)

/-- Spec-side field clause: the OR of the atoms, wrapped in parentheses. -/
def specQuery (f : String) (ts : List String) : String :=
  "(" ++ specOr (specAtoms f ts) ++ ")"

/-- Tail of an OR-joined list relative to its first element. -/
def specSep (s : String) : List String → String
  | [] => ""
  | a :: rest => s ++ a ++ specSep s rest

lemma intercalate_go_eq (s : String) :
    ∀ (l : List String) (acc : String),
      String.intercalate.go acc s l = acc ++ specSep s l := by
  intro l
  induction l with
  | nil => intro acc; simp [String.intercalate.go, specSep]
  | cons a rest ih =>
    intro acc
    simp only [String.intercalate.go, specSep, ih, String.append_assoc]

lemma intercalate_eq_specOr :
    ∀ l : List String, String.intercalate " OR " l = specOr l := by
  intro l
  match l with
  | [] => rfl
  | [a] =>
    simp [String.intercalate, intercalate_go_eq, specSep, specOr]
  | a :: b :: rest =>
    have h2 : String.intercalate " OR " (b :: rest) = specOr (b :: rest) :=
      intercalate_eq_specOr (b :: rest)
    simp only [String.intercalate, intercalate_go_eq, specSep] at h2 ⊢
    simp only [specOr, ← h2, String.append_assoc]

lemma nested_go_ok (env : Env) (qb : String) (tr : Bool)
    (hok : ∀ q, env.outcome q = Outcome.ok) :
    ∀ (criteria : List (String × List String)) (evs : List Ev) (acc : Finset Tup),
      nested_go env false qb tr criteria evs acc =
        .ok (evs ++ criteria.map (fun p => Ev.search (orJoin p.1 p.2 ++ qb)),
             acc ∪ fieldResults env qb criteria) := by
  intro criteria
  induction criteria with
  | nil => intro evs acc; simp [nested_go, fieldResults]
  | cons p rest ih =>
    intro evs acc
    obtain ⟨f, ts⟩ := p
    have hps : process_search env false (orJoin f ts) qb tr =
        .ok ([Ev.search (orJoin f ts ++ qb)],
          ((env.rRecords (orJoin f ts ++ qb)).map recordToTupleR).toFinset) := by
      simp [process_search, hok]
    rw [nested_go, hps]
    simp [ih, fieldResults, Finset.union_assoc]

lemma nested_ok (env : Env) (qb : String) (tr : Bool)
    (hok : ∀ q, env.outcome q = Outcome.ok)
    (criteria : List (String × List String)) :
    nested_process_search env false criteria qb tr =
      .ok (criteria.map (fun p => Ev.search (orJoin p.1 p.2 ++ qb)),
           fieldResults env qb criteria) := by
  simp [nested_process_search, nested_go_ok env qb tr hok criteria]

/-- A small concrete environment used to instantiate the hypotheses of
the proved theorems: every query succeeds and returns the same two
records, which differ only in the letter case of endpoint and username. -/
def witEnv : Env := {
  now := 0
  fmt := fun n => toString n
  thConvert := fun q => .ok q
  thRecords := fun _ => []
  rRecords := fun _ => [⟨"HOST", "User", "p", "c"⟩, ⟨"host", "USER", "p", "c"⟩]
  outcome := fun _ => .ok
  fsExists := fun _ => true
  walkJson := fun _ => []
  readLines := fun _ => ["1.2.3.4\n", "5.6.7.8"]
  readDef := fun _ => [("chrome", [("process_name", ["chrome.exe", "chrome2.exe"])])] }

/-- Claim C1: for a criteria group mapping field F to N terms,
the constructed query for F is exactly one parenthesized OR-clause of N
atoms `F:term` in input order (the code's join equals the spec-side
clause built atom by atom, and the atom list has length N with the i-th
atom `F:ts[i]`); a group with several fields issues one search per field
(no cross-product), the shared base fragment is appended to each, and
the group's result set is the union of the per-field result sets. -/
theorem C1_query_construction :
    (∀ (f : String) (ts : List String), ts ≠ [] →
      orJoin f ts = specQuery f ts ∧
      (specAtoms f ts).length = ts.length ∧
      (∀ i, i < ts.length →
        (specAtoms f ts).getD i "" = f ++ ":" ++ ts.getD i "")) ∧
    (∀ (env : Env) (qb : String) (criteria : List (String × List String)),
      (∀ q, env.outcome q = Outcome.ok) →
      nested_process_search env false criteria qb false =
        .ok (criteria.map (fun p => Ev.search (orJoin p.1 p.2 ++ qb)),
             fieldResults env qb criteria)) := by
  constructor
  · intro f ts _
    refine ⟨?_, ?_, ?_⟩
    · simp [orJoin, specQuery, specAtoms, intercalate_eq_specOr]
    · simp [specAtoms]
    · intro i hi
      simp [specAtoms, List.getD_eq_getElem?_getD, List.getElem?_map]
      rcases List.getElem?_eq_some_iff.mpr ⟨hi, rfl⟩ with _
      rw [List.getElem?_eq_getElem hi]
      simp
  · intro env qb criteria hok
    exact nested_ok env qb false hok criteria

/-- Witness for C1 at a concrete group: two terms on field
process_name, a second field, and a two-record backend. -/
theorem C1_query_construction_witness :
    ("chrome.exe" :: ["chrome2.exe"] ≠ [] ∧
      orJoin "process_name" ["chrome.exe", "chrome2.exe"] =
        "(process_name:chrome.exe OR process_name:chrome2.exe)") ∧
    (∀ q, witEnv.outcome q = Outcome.ok) ∧
    nested_process_search witEnv false
        [("process_name", ["chrome.exe", "chrome2.exe"])] "" false =
      .ok ([Ev.search "(process_name:chrome.exe OR process_name:chrome2.exe)"],
           {("host", "user", "p", "c")}) := by
  refine ⟨⟨by decide, ?_⟩, fun q => rfl, ?_⟩
  · have h := (C1_query_construction.1 "process_name" ["chrome.exe", "chrome2.exe"]
      (by decide)).1
    rw [h]; rfl
  · have h := C1_query_construction.2 witEnv ""
      [("process_name", ["chrome.exe", "chrome2.exe"])] (fun q => rfl)
    rw [h]
    refine congrArg Except.ok ?_
    decide

/-- Claim C2: a ResultSet is a set of 4-tuples with structural equality,
endpoint and username lowercased at collection time; merging the result
set of the same query a second time leaves the accumulated set unchanged,
and two raw records differing only in the case of endpoint or username
collapse to a single entry. -/
theorem C2_resultset_dedup :
    (∀ (env : Env) (cbc : Bool) (q qb : String) (tr : Bool)
        (evs : List Ev) (rs acc : Finset Tup),
      process_search env cbc q qb tr = .ok (evs, rs) →
      (acc ∪ rs) ∪ rs = acc ∪ rs) ∧
    (∀ r1 r2 : RecordR,
      pyLower r1.hostname = pyLower r2.hostname →
      pyLower r1.username = pyLower r2.username →
      r1.path = r2.path → r1.cmdline = r2.cmdline →
      recordToTupleR r1 = recordToTupleR r2 ∧
      (∀ (env : Env) (q qb : String),
        env.rRecords (q ++ qb) = [r1, r2] →
        env.outcome (q ++ qb) = Outcome.ok →
        process_search env false q qb false =
          .ok ([Ev.search (q ++ qb)], {recordToTupleR r1}))) := by
  constructor
  · intro env cbc q qb tr evs rs acc _
    rw [Finset.union_assoc, Finset.union_self]
  · intro r1 r2 h1 h2 h3 h4
    have ht : recordToTupleR r1 = recordToTupleR r2 := by
      simp [recordToTupleR, h1, h2, h3, h4]
    refine ⟨ht, ?_⟩
    intro env q qb hrec hout
    simp [process_search, hrec, hout, ← ht]

/-- Witness for C2: the two case-variant records of `witEnv` collapse to
one entry, and re-merging an already merged result set is a no-op. -/
theorem C2_resultset_dedup_witness :
    (pyLower "HOST" = pyLower "host" ∧ pyLower "User" = pyLower "USER" ∧
      process_search witEnv false "q" "" false =
        .ok ([Ev.search "q"], {("host", "user", "p", "c")})) ∧
    (({("x", "y", "z", "w")} ∪ ({("host", "user", "p", "c")} : Finset Tup)) ∪
        {("host", "user", "p", "c")} =
      {("x", "y", "z", "w")} ∪ {("host", "user", "p", "c")}) := by
  have h := C2_resultset_dedup.2 ⟨"HOST", "User", "p", "c"⟩
    ⟨"host", "USER", "p", "c"⟩ rfl rfl rfl rfl
  have h2 := h.2 witEnv "q" "" rfl rfl
  constructor
  · refine ⟨rfl, rfl, ?_⟩
    rw [h2]
    refine congrArg Except.ok ?_
    decide
  · exact C2_resultset_dedup.1 witEnv false "q" "" false [Ev.search "q"]
      {("host", "user", "p", "c")} {("x", "y", "z", "w")}
      (by rw [h2]; refine congrArg Except.ok ?_; decide)

/-- A concrete stand-in for `strftime`, rendering a start time. -/
def fmt0 : Int → String := fun n => toString n

/-- Claim C3 counterexample: with both `--days 2` and `--minutes 5`
supplied (in either command-line order, since argparse produces the same
parsed namespace regardless of order), the time-window clause is the one
derived from --days, not from whichever flag came last: in particular
with --minutes last the clause is still the --days one, in both
dialects. -/
theorem C3_counterexample :
    timeFragment false fmt0 0 (some 2) (some 5) = " start:-2880m" ∧
    timeFragment false fmt0 0 (some 2) none = " start:-2880m" ∧
    timeFragment false fmt0 0 none (some 5) = " start:-5m" ∧
    (" start:-2880m" : String) ≠ " start:-5m" ∧
    timeFragment true fmt0 10000 (some 2) (some 5) =
      " process_start_time:[7120 TO *]" ∧
    timeFragment true fmt0 10000 none (some 5) =
      " process_start_time:[9995 TO *]" ∧
    (" process_start_time:[7120 TO *]" : String) ≠
      " process_start_time:[9995 TO *]" := by
  refine ⟨rfl, rfl, rfl, by decide, rfl, rfl, by decide⟩

/-- Claim C3 (amended): when both --days and --minutes are supplied, the
time-window clause is the one derived from --days whenever its value is
nonzero, regardless of the order of the flags on the command line
(--minutes is ignored); --minutes takes effect only when --days is
absent or zero.  This holds in both backend dialects. -/
theorem C3_amended (cbc : Bool) (fmt : Int → String) (now : Int)
    (d : Int) (m : Option Int) :
    (d ≠ 0 → timeFragment cbc fmt now (some d) m =
      timeFragment cbc fmt now (some d) none) ∧
    timeFragment cbc fmt now (some 0) m = timeFragment cbc fmt now none m := by
  constructor
  · intro hd
    cases cbc <;> simp [timeFragment, truthyInt, hd]
  · cases cbc <;> simp [timeFragment, truthyInt]

/-- Witness for C3 (amended) at `--days 2 --minutes 5`, on-prem dialect. -/
theorem C3_amended_witness :
    (2 : Int) ≠ 0 ∧
    timeFragment false fmt0 0 (some 2) (some 5) =
      timeFragment false fmt0 0 (some 2) none := by
  exact ⟨by decide, (C3_amended false fmt0 0 2 (some 5)).1 (by decide)⟩

/-- Claim C4: with the cloud backend and translation requested,
`process_search` translates the raw query before appending the base
fragment; a failed translation (ServerError) skips that one query with a
log message and contributes the empty result set, and the run continues
with the next query of the batch instead of terminating. -/
theorem C4_translation :
    (∀ (env : Env) (q qb : String), env.thConvert q = .error () →
      process_search env true q qb true = .ok ([Ev.logSkip q], ∅)) ∧
    (∀ (env : Env) (q qb q2 : String), env.thConvert q = .ok q2 →
      env.outcome (q2 ++ qb) = Outcome.ok →
      process_search env true q qb true =
        .ok ([Ev.search (q2 ++ qb)],
             ((env.thRecords (q2 ++ qb)).map recordToTupleTH).toFinset)) ∧
    (∀ (env : Env) (qb f1 : String) (ts1 : List String) (f2 : String)
        (ts2 : List String) (q2 : String),
      env.thConvert (orJoin f1 ts1) = .error () →
      env.thConvert (orJoin f2 ts2) = .ok q2 →
      env.outcome (q2 ++ qb) = Outcome.ok →
      nested_process_search env true [(f1, ts1), (f2, ts2)] qb true =
        .ok ([Ev.logSkip (orJoin f1 ts1), Ev.search (q2 ++ qb)],
             ((env.thRecords (q2 ++ qb)).map recordToTupleTH).toFinset)) := by
  refine ⟨?_, ?_, ?_⟩
  · intro env q qb h
    simp [process_search, h]
  · intro env q qb q2 h1 h2
    simp [process_search, h1, h2]
  · intro env qb f1 ts1 f2 ts2 q2 h1 h2 h3
    simp [nested_process_search, nested_go, process_search, h1, h2, h3]

/-- Environment for the C4 witness: translation fails exactly on the
query built from the first criteria field and succeeds elsewhere; the
cloud backend returns one record whose username key is absent. -/
def witEnvT : Env := { witEnv with
  thConvert := fun q => if q = "(a:1)" then .error () else .ok ("T" ++ q)
  thRecords := fun _ => [⟨some "HOST", none, some "p", some "c"⟩] }

/-- Witness for C4: the first field's query fails translation and is
skipped with an empty contribution; the second is translated, executed
with the base fragment appended, and its results survive. -/
theorem C4_translation_witness :
    witEnvT.thConvert "(a:1)" = .error () ∧
    process_search witEnvT true "(a:1)" " B" true = .ok ([Ev.logSkip "(a:1)"], ∅) ∧
    nested_process_search witEnvT true [("a", ["1"]), ("b", ["2"])] " B" true =
      .ok ([Ev.logSkip "(a:1)", Ev.search "T(b:2) B"],
           {("host", "none", "p", "c")}) := by
  refine ⟨rfl, ?_, ?_⟩
  · exact C4_translation.1 witEnvT "(a:1)" " B" rfl
  · have h := C4_translation.2.2 witEnvT " B" "a" ["1"] "b" ["2"] "T(b:2)"
      rfl rfl rfl
    rw [h]
    refine congrArg Except.ok ?_
    decide

/-- The parsed namespace of a plain `--query <q>` invocation, on-prem
backend, with no other flags. -/
def argsQuery (q : String) : Args :=
  { cbc := false, translate := false, days := none, minutes := none,
    deffile := none, defdir := none, query := some q, iocfile := none,
    hostname := none, username := none, ioctype := none }

/-- Claim C5: a KeyboardInterrupt during record iteration makes
`process_search` stop consuming and return the records accumulated so
far instead of propagating; the interrupt escapes only that query's
collection loop, so the remaining queries of a batch still execute, the
partial rows are written, and the process exits with status 0. -/
theorem C5_interrupt :
    (∀ (env : Env) (q qb : String) (k : Nat),
      env.outcome (q ++ qb) = Outcome.interrupt k →
      process_search env false q qb false =
        .ok ([Ev.search (q ++ qb), Ev.logInterrupt],
             (((env.rRecords (q ++ qb)).map recordToTupleR).take k).toFinset)) ∧
    (∀ (env : Env) (qb f1 : String) (ts1 : List String) (f2 : String)
        (ts2 : List String) (k : Nat),
      env.outcome (orJoin f1 ts1 ++ qb) = Outcome.interrupt k →
      env.outcome (orJoin f2 ts2 ++ qb) = Outcome.ok →
      nested_process_search env false [(f1, ts1), (f2, ts2)] qb false =
        .ok ([Ev.search (orJoin f1 ts1 ++ qb), Ev.logInterrupt,
              Ev.search (orJoin f2 ts2 ++ qb)],
             (((env.rRecords (orJoin f1 ts1 ++ qb)).map recordToTupleR).take
                 k).toFinset ∪
               ((env.rRecords (orJoin f2 ts2 ++ qb)).map
                 recordToTupleR).toFinset)) ∧
    (∀ (env : Env) (q : String) (k : Nat), ¬q.isEmpty = true →
      env.outcome q = Outcome.interrupt k →
      Surveyor.main env (argsQuery q) =
        ([Ev.openOut, Ev.header, Ev.search q, Ev.logInterrupt,
          Ev.rows (((env.rRecords q).map recordToTupleR).take k).toFinset
            q "query",
          Ev.closeOut], MRes.exit 0)) := by
  refine ⟨?_, ?_, ?_⟩
  · intro env q qb k h
    simp [process_search, h]
  · intro env qb f1 ts1 f2 ts2 k h1 h2
    simp [nested_process_search, nested_go, process_search, h1, h2]
  · intro env q k hq hout
    have hq2 : q.isEmpty = false := by simpa using hq
    have hps : process_search env false q "" false =
        .ok ([Ev.search q, Ev.logInterrupt],
          (((env.rRecords q).map recordToTupleR).take k).toFinset) := by
      simp [process_search, String.append_empty, hout]
    simp [Surveyor.main, Surveyor.mainTail, Surveyor.queryBase, argsQuery,
      selectorCount, truthyStr, timeFragment, truthyInt, defFilesStage,
      mainBody, hq2, hps]

/-- Environment for the C5 witness: iterating the query `proc:x` is
interrupted after one record; everything else completes. -/
def witEnvI : Env :=
  { witEnv with outcome := fun q => if q = "proc:x" then .interrupt 1 else .ok }

/-- Witness for C5: interrupted after one of two records mid-query, the
run still writes the one partial row, closes the file, and exits 0. -/
theorem C5_interrupt_witness :
    witEnvI.outcome "proc:x" = Outcome.interrupt 1 ∧
    Surveyor.main witEnvI (argsQuery "proc:x") =
      ([Ev.openOut, Ev.header, Ev.search "proc:x", Ev.logInterrupt,
        Ev.rows {("host", "user", "p", "c")} "proc:x" "query",
        Ev.closeOut], MRes.exit 0) := by
  refine ⟨rfl, ?_⟩
  rw [C5_interrupt.2.2 witEnvI "proc:x" 1 (by decide) rfl]
  decide

/-- Is the event one of the two pre-open error reports? -/
def preOpenEv : Ev → Bool
  | .argError => true
  | .fatalError => true
  | _ => false

/-- Claim C6: each fatal validation error (a --hostname or --username
equivalent field already in the raw --query, --iocfile without --ioctype,
or a missing --deffile or --defdir path) terminates the process with
nonzero exit status before the output file is opened or written and
before any search executes: the whole trace consists of error reports. -/
theorem C6_fatal_validation (env : Env) (a : Args) :
    ((a.iocfile.isSome = true ∧ a.ioctype = none) ∨
     (truthyStr a.hostname = true ∧ truthyStr a.query = true ∧
       strContains (a.query.getD "") (hostKey a.cbc) = true) ∨
     (truthyStr a.username = true ∧ truthyStr a.query = true ∧
       strContains (a.query.getD "") (userKey a.cbc) = true) ∨
     (truthyStr a.deffile = true ∧ env.fsExists (a.deffile.getD "") = false) ∨
     (truthyStr a.defdir = true ∧ env.fsExists (a.defdir.getD "") = false)) →
    (∀ e ∈ (Surveyor.main env a).1, preOpenEv e = true) ∧
    ∃ c, (Surveyor.main env a).2 = MRes.exit c ∧ c ≠ 0 := by
  intro h
  by_cases h1 : selectorCount a ≠ 1
  · have hm : Surveyor.main env a = ([Ev.argError], MRes.exit 2) := by
      simp [Surveyor.main, h1]
    rw [hm]
    exact ⟨by decide, 2, rfl, by decide⟩
  · by_cases h2 : (a.iocfile.isSome && !a.ioctype.isSome) = true
    · have hm : Surveyor.main env a = ([Ev.argError], MRes.exit 2) := by
        simp only [Surveyor.main, if_neg h1, if_pos h2]
      rw [hm]
      exact ⟨by decide, 2, rfl, by decide⟩
    · by_cases h3 : (truthyStr a.hostname && (truthyStr a.query &&
          strContains (a.query.getD "") (hostKey a.cbc))) = true
      · have hm : Surveyor.main env a = ([Ev.argError], MRes.exit 2) := by
          simp only [Surveyor.main, if_neg h1, if_neg h2, Bool.and_assoc,
            if_pos h3]
        rw [hm]
        exact ⟨by decide, 2, rfl, by decide⟩
      · by_cases h4 : (truthyStr a.username && (truthyStr a.query &&
            strContains (a.query.getD "") (userKey a.cbc))) = true
        · have hm : Surveyor.main env a = ([Ev.argError], MRes.exit 2) := by
            simp only [Surveyor.main, if_neg h1, if_neg h2, Bool.and_assoc,
              if_neg h3, if_pos h4]
          rw [hm]
          exact ⟨by decide, 2, rfl, by decide⟩
        · by_cases h5 : truthyStr a.deffile = true
          · by_cases h6 : env.fsExists (a.deffile.getD "") = true
            · exfalso
              rcases h with d1 | d2 | d3 | d4 | d5
              · simp [d1.1, d1.2] at h2
              · simp [d2.1, d2.2.1, d2.2.2] at h3
              · simp [d3.1, d3.2.1, d3.2.2] at h4
              · rw [h6] at d4; exact absurd d4.2 (by decide)
              · have hds : a.deffile.isSome = true := by
                  revert h5; cases a.deffile <;> simp [truthyStr]
                have hdd : a.defdir.isSome = true := by
                  revert d5; cases a.defdir <;> simp [truthyStr]
                apply h1
                simp [selectorCount, hds, hdd]
                omega
            · have hm : Surveyor.main env a = ([Ev.fatalError], MRes.exit 1) := by
                have hdf : defFilesStage env a =
                    .error ([Ev.fatalError], MRes.exit 1) := by
                  simp [defFilesStage, h5, h6]
                simp only [Surveyor.main, if_neg h1, if_neg h2, Bool.and_assoc,
                  if_neg h3, if_neg h4, hdf]
              rw [hm]
              exact ⟨by decide, 1, rfl, by decide⟩
          · by_cases h7 : truthyStr a.defdir = true
            · by_cases h8 : env.fsExists (a.defdir.getD "") = true
              · exfalso
                rcases h with d1 | d2 | d3 | d4 | d5
                · simp [d1.1, d1.2] at h2
                · simp [d2.1, d2.2.1, d2.2.2] at h3
                · simp [d3.1, d3.2.1, d3.2.2] at h4
                · exact h5 d4.1
                · rw [h8] at d5; exact absurd d5.2 (by decide)
              · have hm : Surveyor.main env a = ([Ev.fatalError], MRes.exit 1) := by
                  have hdf : defFilesStage env a =
                      .error ([Ev.fatalError], MRes.exit 1) := by
                    simp [defFilesStage, h5, h7, h8]
                  simp only [Surveyor.main, if_neg h1, if_neg h2, Bool.and_assoc,
                    if_neg h3, if_neg h4, hdf]
                rw [hm]
                exact ⟨by decide, 1, rfl, by decide⟩
            · exfalso
              rcases h with d1 | d2 | d3 | d4 | d5
              · simp [d1.1, d1.2] at h2
              · simp [d2.1, d2.2.1, d2.2.2] at h3
              · simp [d3.1, d3.2.1, d3.2.2] at h4
              · exact h5 d4.1
              · exact h7 d5.1

/-- Environment for the C6 witness: no path exists. -/
def witEnvMissing : Env := { witEnv with fsExists := fun _ => false }

/-- The parsed namespace of a `--deffile <file>` invocation. -/
def argsDef (file : String) : Args :=
  { cbc := false, translate := false, days := none, minutes := none,
    deffile := some file, defdir := none, query := none, iocfile := none,
    hostname := none, username := none, ioctype := none }

/-- Witness for C6: `--deffile defs.json` with a missing path exits
nonzero before opening the output file or searching. -/
theorem C6_fatal_validation_witness :
    (truthyStr (argsDef "defs.json").deffile = true ∧
      witEnvMissing.fsExists "defs.json" = false) ∧
    ((∀ e ∈ (Surveyor.main witEnvMissing (argsDef "defs.json")).1,
        preOpenEv e = true) ∧
      ∃ c, (Surveyor.main witEnvMissing (argsDef "defs.json")).2 =
        MRes.exit c ∧ c ≠ 0) := by
  refine ⟨⟨rfl, rfl⟩, ?_⟩
  exact C6_fatal_validation witEnvMissing (argsDef "defs.json")
    (Or.inr (Or.inr (Or.inr (Or.inl ⟨rfl, rfl⟩))))

/-- Is the event a search? -/
def isSearchEv : Ev → Bool
  | .search _ => true
  | _ => false

/-- The two events one IOC line produces when its query runs to
completion: the search and the row block, program column the stripped
indicator, source column "ioc". -/
def iocBlock (env : Env) (qb ioct : String) (l : String) : List Ev :=
  [Ev.search (ioct ++ ":" ++ pyStrip l ++ qb),
   Ev.rows (((env.rRecords (ioct ++ ":" ++ pyStrip l ++ qb)).map
     recordToTupleR).toFinset) (pyStrip l) "ioc"]

lemma iocLoop_ok (env : Env) (tr : Bool) (qb ioct : String)
    (hok : ∀ q, env.outcome q = Outcome.ok) :
    ∀ lines : List String,
      iocLoop env false tr qb ioct lines =
        .ok (lines.flatMap (iocBlock env qb ioct)) := by
  intro lines
  induction lines with
  | nil => simp [iocLoop]
  | cons l rest ih =>
    have hps : process_search env false (ioct ++ ":" ++ pyStrip l) qb tr =
        .ok ([Ev.search (ioct ++ ":" ++ pyStrip l ++ qb)],
          ((env.rRecords (ioct ++ ":" ++ pyStrip l ++ qb)).map
            recordToTupleR).toFinset) := by
      simp [process_search, hok, String.append_assoc]
    simp [iocLoop, hps, ih, iocBlock]

/-- The parsed namespace of an `--iocfile <file> --ioctype <t>`
invocation, on-prem backend, no other flags. -/
def argsIoc (file ioct : String) : Args :=
  { cbc := false, translate := false, days := none, minutes := none,
    deffile := none, defdir := none, query := none, iocfile := some file,
    hostname := none, username := none, ioctype := some ioct }

/-- Claim C7: in indicator-file mode every line yields exactly one
executed query `<ioctype>:<stripped line>` (so a file with two
indicators issues exactly two queries), and every row block carries
program column equal to the literal indicator and source column "ioc". -/
theorem C7_ioc_mode (env : Env) (file ioct : String) :
    ¬file.isEmpty = true → (∀ q, env.outcome q = Outcome.ok) →
    Surveyor.main env (argsIoc file ioct) =
      ([Ev.openOut, Ev.header] ++
        (env.readLines file).flatMap (iocBlock env "" ioct) ++
        [Ev.closeOut], MRes.exit 0) ∧
    (Surveyor.main env (argsIoc file ioct)).1.countP isSearchEv =
      (env.readLines file).length := by
  intro hf hok
  have hf2 : file.isEmpty = false := by simpa using hf
  have hm : Surveyor.main env (argsIoc file ioct) =
      ([Ev.openOut, Ev.header] ++
        (env.readLines file).flatMap (iocBlock env "" ioct) ++
        [Ev.closeOut], MRes.exit 0) := by
    simp [Surveyor.main, Surveyor.mainTail, Surveyor.queryBase, argsIoc,
      selectorCount, truthyStr, timeFragment, truthyInt, defFilesStage,
      mainBody, hf2, iocLoop_ok env false "" ioct hok]
  refine ⟨hm, ?_⟩
  rw [hm]
  have hcount : ∀ L : List String,
      (L.flatMap (iocBlock env "" ioct)).countP isSearchEv = L.length := by
    intro L
    induction L with
    | nil => simp
    | cons l rest ih => simp [iocBlock, ih, isSearchEv]
  simp [List.countP_append, hcount, isSearchEv]

/-- Witness for C7, end-to-end scenario 2: an IOC file holding
`1.2.3.4` and `5.6.7.8` with type `ipaddr` issues exactly the two
queries `ipaddr:1.2.3.4` and `ipaddr:5.6.7.8` and tags both row blocks
with source "ioc" and the literal indicator as program. -/
theorem C7_ioc_mode_witness :
    (¬("iocs.txt".isEmpty = true) ∧ (∀ q, witEnv.outcome q = Outcome.ok)) ∧
    Surveyor.main witEnv (argsIoc "iocs.txt" "ipaddr") =
      ([Ev.openOut, Ev.header,
        Ev.search "ipaddr:1.2.3.4",
        Ev.rows {("host", "user", "p", "c")} "1.2.3.4" "ioc",
        Ev.search "ipaddr:5.6.7.8",
        Ev.rows {("host", "user", "p", "c")} "5.6.7.8" "ioc",
        Ev.closeOut], MRes.exit 0) ∧
    (Surveyor.main witEnv (argsIoc "iocs.txt" "ipaddr")).1.countP isSearchEv
      = 2 := by
  have h := C7_ioc_mode witEnv "iocs.txt" "ipaddr" (by decide) (fun q => rfl)
  refine ⟨⟨by decide, fun q => rfl⟩, ?_, ?_⟩
  · rw [h.1]
    decide
  · rw [h.2]
    decide

/-- The events one program of a definition file produces when all its
queries run to completion: one search per criteria field, then the row
block tagged with the program name and the file's source label. -/
def progBlock (env : Env) (qb source : String)
    (p : String × List (String × List String)) : List Ev :=
  (p.2.map (fun c => Ev.search (orJoin c.1 c.2 ++ qb))) ++
    [Ev.rows (fieldResults env qb p.2) p.1 source]

lemma progLoop_ok (env : Env) (tr : Bool) (qb source : String)
    (hok : ∀ q, env.outcome q = Outcome.ok) :
    ∀ programs : List (String × List (String × List String)),
      progLoop env false tr qb source programs =
        .ok (programs.flatMap (progBlock env qb source)) := by
  intro programs
  induction programs with
  | nil => simp [progLoop]
  | cons p rest ih =>
    obtain ⟨prog, criteria⟩ := p
    simp [progLoop, nested_ok env qb tr hok criteria, ih, progBlock]

lemma defLoop_ok (env : Env) (tr : Bool) (qb : String)
    (hok : ∀ q, env.outcome q = Outcome.ok) :
    ∀ files : List String,
      defLoop env false tr qb files =
        .ok (files.flatMap (fun f => (env.readDef f).flatMap
          (progBlock env qb (pySplitextRoot (pyBasename f))))) := by
  intro files
  induction files with
  | nil => simp [defLoop]
  | cons f rest ih =>
    simp [defLoop, progLoop_ok env tr qb (pySplitextRoot (pyBasename f)) hok,
      ih]

/-- The parsed namespace of a `--defdir <dir>` invocation. -/
def argsDefdir (dir : String) : Args :=
  { cbc := false, translate := false, days := none, minutes := none,
    deffile := none, defdir := some dir, query := none, iocfile := none,
    hostname := none, username := none, ioctype := none }

/-- Claim C8: in definition-file mode every row block of a program
carries the file's top-level key as program column and the file's base
name with extension stripped as source column; in definition-directory
mode the same holds for each discovered file, the label being shared by
all programs of one file; in single-query mode the source column is the
string "query". -/
theorem C8_source_labels :
    (∀ (env : Env) (file : String), ¬file.isEmpty = true →
      env.fsExists file = true → (∀ q, env.outcome q = Outcome.ok) →
      Surveyor.main env (argsDef file) =
        ([Ev.openOut, Ev.header] ++
          (env.readDef file).flatMap
            (progBlock env "" (pySplitextRoot (pyBasename file))) ++
          [Ev.closeOut], MRes.exit 0)) ∧
    (∀ (env : Env) (dir : String), ¬dir.isEmpty = true →
      env.fsExists dir = true → (∀ q, env.outcome q = Outcome.ok) →
      Surveyor.main env (argsDefdir dir) =
        ([Ev.openOut, Ev.header] ++
          (env.walkJson dir).flatMap (fun f => (env.readDef f).flatMap
            (progBlock env "" (pySplitextRoot (pyBasename f)))) ++
          [Ev.closeOut], MRes.exit 0)) ∧
    (∀ (env : Env) (q : String), ¬q.isEmpty = true →
      (∀ q2, env.outcome q2 = Outcome.ok) →
      Surveyor.main env (argsQuery q) =
        ([Ev.openOut, Ev.header, Ev.search q,
          Ev.rows (((env.rRecords q).map recordToTupleR).toFinset) q "query",
          Ev.closeOut], MRes.exit 0)) := by
  refine ⟨?_, ?_, ?_⟩
  · intro env file hf hex hok
    have hf2 : file.isEmpty = false := by simpa using hf
    simp [Surveyor.main, Surveyor.mainTail, Surveyor.queryBase, argsDef,
      selectorCount, truthyStr, timeFragment, truthyInt, defFilesStage,
      mainBody, hf2, hex, defLoop_ok env false "" hok]
  · intro env dir hd hex hok
    have hd2 : dir.isEmpty = false := by simpa using hd
    simp [Surveyor.main, Surveyor.mainTail, Surveyor.queryBase, argsDefdir,
      selectorCount, truthyStr, timeFragment, truthyInt, defFilesStage,
      mainBody, hd2, hex, defLoop_ok env false "" hok]
  · intro env q hq hok
    have hq2 : q.isEmpty = false := by simpa using hq
    have hps : process_search env false q "" false =
        .ok ([Ev.search q],
          ((env.rRecords q).map recordToTupleR).toFinset) := by
      simp [process_search, String.append_empty, hok]
    simp [Surveyor.main, Surveyor.mainTail, Surveyor.queryBase, argsQuery,
      selectorCount, truthyStr, timeFragment, truthyInt, defFilesStage,
      mainBody, hq2, hps]

/-- Witness for C8, end-to-end scenario 1: `--deffile defs/browsers.json`
defining program `chrome` produces rows tagged program "chrome", source
"browsers"; the query mode run is tagged source "query". -/
theorem C8_source_labels_witness :
    (¬("defs/browsers.json".isEmpty = true) ∧
      witEnv.fsExists "defs/browsers.json" = true ∧
      (∀ q, witEnv.outcome q = Outcome.ok)) ∧
    Surveyor.main witEnv (argsDef "defs/browsers.json") =
      ([Ev.openOut, Ev.header,
        Ev.search "(process_name:chrome.exe OR process_name:chrome2.exe)",
        Ev.rows {("host", "user", "p", "c")} "chrome" "browsers",
        Ev.closeOut], MRes.exit 0) ∧
    Surveyor.main witEnv (argsQuery "path:foo") =
      ([Ev.openOut, Ev.header, Ev.search "path:foo",
        Ev.rows {("host", "user", "p", "c")} "path:foo" "query",
        Ev.closeOut], MRes.exit 0) := by
  refine ⟨⟨by decide, rfl, fun q => rfl⟩, ?_, ?_⟩
  · rw [C8_source_labels.1 witEnv "defs/browsers.json" (by decide) rfl
      (fun q => rfl)]
    have hsrc : pySplitextRoot (pyBasename "defs/browsers.json") =
        "browsers" := by rfl
    rw [hsrc]
    decide
  · rw [C8_source_labels.2.2 witEnv "path:foo" (by decide) (fun q => rfl)]
    decide

/-- Events the run body may emit: searches, logs and row blocks — never
a file open or close, never a validation error report. -/
def bodyEv : Ev → Bool
  | .search _ => true
  | .logSkip _ => true
  | .logInterrupt => true
  | .rows _ _ _ => true
  | _ => false

lemma ps_body (env : Env) (cbc : Bool) (q qb : String) (tr : Bool) :
    (match process_search env cbc q qb tr with
     | .error e => e.all bodyEv
     | .ok p => p.1.all bodyEv) = true := by
  cases cbc
  · simp only [process_search]
    cases ho : env.outcome (q ++ qb) <;> simp [bodyEv, ho]
  · simp only [process_search]
    cases hc : (if tr then env.thConvert q else .ok q) with
    | error e => simp [bodyEv]
    | ok q2 => cases ho : env.outcome (q2 ++ qb) <;> simp [bodyEv, ho]

lemma ps_body_err (env : Env) (cbc : Bool) (q qb : String) (tr : Bool)
    (e : List Ev) (h : process_search env cbc q qb tr = .error e) :
    e.all bodyEv = true := by
  have hb := ps_body env cbc q qb tr
  rw [h] at hb
  exact hb

lemma ps_body_ok (env : Env) (cbc : Bool) (q qb : String) (tr : Bool)
    (p : List Ev × Finset Tup) (h : process_search env cbc q qb tr = .ok p) :
    p.1.all bodyEv = true := by
  have hb := ps_body env cbc q qb tr
  rw [h] at hb
  exact hb

lemma nested_go_body (env : Env) (cbc : Bool) (qb : String) (tr : Bool) :
    ∀ (criteria : List (String × List String)) (evs : List Ev)
      (acc : Finset Tup), evs.all bodyEv = true →
      (match nested_go env cbc qb tr criteria evs acc with
       | .error e => e.all bodyEv
       | .ok p => p.1.all bodyEv) = true := by
  intro criteria
  induction criteria with
  | nil => intro evs acc he; simpa [nested_go] using he
  | cons p rest ih =>
    intro evs acc he
    obtain ⟨f, ts⟩ := p
    rw [nested_go]
    cases hps : process_search env cbc (orJoin f ts) qb tr with
    | error e =>
      simp only [List.all_append, he, Bool.true_and]
      exact ps_body_err env cbc (orJoin f ts) qb tr e hps
    | ok p2 =>
      exact ih (evs ++ p2.1) (acc ∪ p2.2)
        (by simp [List.all_append, he,
          ps_body_ok env cbc (orJoin f ts) qb tr p2 hps])

lemma nested_body_err (env : Env) (cbc : Bool)
    (criteria : List (String × List String)) (qb : String) (tr : Bool)
    (e : List Ev) (h : nested_process_search env cbc criteria qb tr = .error e) :
    e.all bodyEv = true := by
  have hb := nested_go_body env cbc qb tr criteria [] ∅ rfl
  rw [nested_process_search] at h
  rw [h] at hb
  exact hb

lemma nested_body_ok (env : Env) (cbc : Bool)
    (criteria : List (String × List String)) (qb : String) (tr : Bool)
    (p : List Ev × Finset Tup)
    (h : nested_process_search env cbc criteria qb tr = .ok p) :
    p.1.all bodyEv = true := by
  have hb := nested_go_body env cbc qb tr criteria [] ∅ rfl
  rw [nested_process_search] at h
  rw [h] at hb
  exact hb

lemma iocLoop_body (env : Env) (cbc tr : Bool) (qb ioct : String) :
    ∀ lines : List String,
      (match iocLoop env cbc tr qb ioct lines with
       | .error e => e.all bodyEv
       | .ok e => e.all bodyEv) = true := by
  intro lines
  induction lines with
  | nil => simp [iocLoop]
  | cons l rest ih =>
    rw [iocLoop]
    cases hps : process_search env cbc (ioct ++ ":" ++ pyStrip l) qb tr with
    | error e =>
      exact ps_body_err env cbc (ioct ++ ":" ++ pyStrip l) qb tr e hps
    | ok p =>
      have hpse := ps_body_ok env cbc (ioct ++ ":" ++ pyStrip l) qb tr p hps
      cases hrest : iocLoop env cbc tr qb ioct rest with
      | error e2 =>
        have h2 : e2.all bodyEv = true := by
          have := ih; rw [hrest] at this; exact this
        simp [List.all_append, hpse, h2, bodyEv]
      | ok e2 =>
        have h2 : e2.all bodyEv = true := by
          have := ih; rw [hrest] at this; exact this
        simp [List.all_append, hpse, h2, bodyEv]

lemma progLoop_body (env : Env) (cbc tr : Bool) (qb source : String) :
    ∀ programs : List (String × List (String × List String)),
      (match progLoop env cbc tr qb source programs with
       | .error e => e.all bodyEv
       | .ok e => e.all bodyEv) = true := by
  intro programs
  induction programs with
  | nil => simp [progLoop]
  | cons p rest ih =>
    obtain ⟨prog, criteria⟩ := p
    rw [progLoop]
    cases hps : nested_process_search env cbc criteria qb tr with
    | error e => exact nested_body_err env cbc criteria qb tr e hps
    | ok p2 =>
      have hpse := nested_body_ok env cbc criteria qb tr p2 hps
      cases hrest : progLoop env cbc tr qb source rest with
      | error e2 =>
        have h2 : e2.all bodyEv = true := by
          have := ih; rw [hrest] at this; exact this
        simp [List.all_append, hpse, h2, bodyEv]
      | ok e2 =>
        have h2 : e2.all bodyEv = true := by
          have := ih; rw [hrest] at this; exact this
        simp [List.all_append, hpse, h2, bodyEv]

lemma defLoop_body (env : Env) (cbc tr : Bool) (qb : String) :
    ∀ files : List String,
      (match defLoop env cbc tr qb files with
       | .error e => e.all bodyEv
       | .ok e => e.all bodyEv) = true := by
  intro files
  induction files with
  | nil => simp [defLoop]
  | cons f rest ih =>
    rw [defLoop]
    cases hps : progLoop env cbc tr qb (pySplitextRoot (pyBasename f))
        (env.readDef f) with
    | error e =>
      have := progLoop_body env cbc tr qb (pySplitextRoot (pyBasename f))
        (env.readDef f)
      rw [hps] at this; exact this
    | ok e =>
      have hpse : e.all bodyEv = true := by
        have := progLoop_body env cbc tr qb (pySplitextRoot (pyBasename f))
          (env.readDef f)
        rw [hps] at this; exact this
      cases hrest : defLoop env cbc tr qb rest with
      | error e2 =>
        have h2 : e2.all bodyEv = true := by
          have := ih; rw [hrest] at this; exact this
        simp [List.all_append, hpse, h2]
      | ok e2 =>
        have h2 : e2.all bodyEv = true := by
          have := ih; rw [hrest] at this; exact this
        simp [List.all_append, hpse, h2]

lemma mainBody_body (env : Env) (a : Args) (qb : String)
    (files : List String) :
    (match mainBody env a qb files with
     | .error e => e.all bodyEv
     | .ok e => e.all bodyEv) = true := by
  rw [mainBody]
  by_cases hq : truthyStr a.query = true
  · simp only [hq, if_pos]
    cases hps : process_search env a.cbc (a.query.getD "") qb a.translate with
    | error e => exact ps_body_err env a.cbc (a.query.getD "") qb a.translate e hps
    | ok p =>
      have := ps_body_ok env a.cbc (a.query.getD "") qb a.translate p hps
      simp [List.all_append, this, bodyEv]
  · by_cases hi : truthyStr a.iocfile = true
    · simp only [hq, hi, if_neg, if_pos, Bool.not_eq_true]
      have := iocLoop_body env a.cbc a.translate qb (a.ioctype.getD "")
        (env.readLines (a.iocfile.getD ""))
      simpa [hq, hi] using this
    · simp only [hq, hi]
      have := defLoop_body env a.cbc a.translate qb files
      simpa [hq, hi] using this

lemma defFilesStage_error (env : Env) (a : Args) (r : List Ev × MRes)
    (h : defFilesStage env a = .error r) :
    r = ([Ev.fatalError], MRes.exit 1) := by
  unfold defFilesStage at h
  split_ifs at h <;> simp_all

lemma mainTail_shape (env : Env) (a : Args) (qb : String)
    (files : List String) :
    (∃ e, e.all bodyEv = true ∧
      Surveyor.mainTail env a qb files =
        ([Ev.openOut, Ev.header] ++ e, MRes.uncaught)) ∨
    (∃ e, e.all bodyEv = true ∧
      Surveyor.mainTail env a qb files =
        ([Ev.openOut, Ev.header] ++ e ++ [Ev.closeOut], MRes.exit 0)) := by
  unfold Surveyor.mainTail
  cases hb : mainBody env a qb files with
  | error e =>
    left
    refine ⟨e, ?_, rfl⟩
    have := mainBody_body env a qb files
    rw [hb] at this; exact this
  | ok e =>
    right
    refine ⟨e, ?_, rfl⟩
    have := mainBody_body env a qb files
    rw [hb] at this; exact this

lemma main_cases (env : Env) (a : Args) :
    Surveyor.main env a = ([Ev.argError], MRes.exit 2) ∨
    Surveyor.main env a = ([Ev.fatalError], MRes.exit 1) ∨
    (∃ e, e.all bodyEv = true ∧
      Surveyor.main env a = ([Ev.openOut, Ev.header] ++ e, MRes.uncaught)) ∨
    (∃ e, e.all bodyEv = true ∧
      Surveyor.main env a =
        ([Ev.openOut, Ev.header] ++ e ++ [Ev.closeOut], MRes.exit 0)) := by
  by_cases h1 : selectorCount a ≠ 1
  · left; simp [Surveyor.main, h1]
  by_cases h2 : (a.iocfile.isSome && !a.ioctype.isSome) = true
  · left; simp only [Surveyor.main, if_neg h1, if_pos h2]
  by_cases h3 : (truthyStr a.hostname && (truthyStr a.query &&
      strContains (a.query.getD "") (hostKey a.cbc))) = true
  · left
    simp only [Surveyor.main, if_neg h1, if_neg h2, Bool.and_assoc, if_pos h3]
  by_cases h4 : (truthyStr a.username && (truthyStr a.query &&
      strContains (a.query.getD "") (userKey a.cbc))) = true
  · left
    simp only [Surveyor.main, if_neg h1, if_neg h2, Bool.and_assoc, if_neg h3,
      if_pos h4]
  cases hdf : defFilesStage env a with
  | error r =>
    right; left
    have hr := defFilesStage_error env a r hdf
    simp only [Surveyor.main, if_neg h1, if_neg h2, Bool.and_assoc, if_neg h3,
      if_neg h4, hdf, hr]
  | ok files =>
    have hms : Surveyor.main env a =
        Surveyor.mainTail env a (Surveyor.queryBase env a) files := by
      simp only [Surveyor.main, if_neg h1, if_neg h2, Bool.and_assoc, if_neg h3,
        if_neg h4, hdf]
    rcases mainTail_shape env a (Surveyor.queryBase env a) files with
      ⟨e, he, heq⟩ | ⟨e, he, heq⟩
    · right; right; left; exact ⟨e, he, hms.trans heq⟩
    · right; right; right; exact ⟨e, he, hms.trans heq⟩

/-- Environment for the C9 counterexample: every query's iteration
raises a non-KeyboardInterrupt exception immediately. -/
def witEnvX : Env := { witEnv with outcome := fun _ => .exn 0 }

/-- Is the event a file-open? -/
def isOpenEv : Ev → Bool
  | .openOut => true
  | _ => false

/-- Is the event a file-close? -/
def isCloseEv : Ev → Bool
  | .closeOut => true
  | _ => false

/-- Claim C9 counterexample: a backend exception nobody catches
terminates the run after the output file was opened and written, and no
close event ever appears in the trace — the release is not guaranteed on
a run terminated by an unhandled backend exception, because the source
closes the file only on the straight-line path (no try/finally or
with-block). -/
theorem C9_counterexample :
    Surveyor.main witEnvX (argsQuery "q") =
      ([Ev.openOut, Ev.header, Ev.search "q"], MRes.uncaught) ∧
    Ev.openOut ∈ (Surveyor.main witEnvX (argsQuery "q")).1 ∧
    Ev.closeOut ∉ (Surveyor.main witEnvX (argsQuery "q")).1 := by
  have hm : Surveyor.main witEnvX (argsQuery "q") =
      ([Ev.openOut, Ev.header, Ev.search "q"], MRes.uncaught) := by decide
  refine ⟨hm, ?_, ?_⟩ <;> rw [hm] <;> decide

/-- Claim C9 (amended): the output handle is acquired at most once and
exactly once on any run that passes validation; on normal completion
(exit 0) it is released exactly once, by the final event of the run; on
a fatal validation exit it is never acquired; on a run terminated by an
unhandled backend exception it is acquired but never explicitly
released. -/
theorem C9_handle_lifecycle (env : Env) (a : Args) :
    (Surveyor.main env a).1.countP isOpenEv ≤ 1 ∧
    ((Surveyor.main env a).2 = MRes.exit 0 →
      (Surveyor.main env a).1.countP isOpenEv = 1 ∧
      (Surveyor.main env a).1.countP isCloseEv = 1 ∧
      (Surveyor.main env a).1.getLast? = some Ev.closeOut) ∧
    (∀ c, (Surveyor.main env a).2 = MRes.exit c → c ≠ 0 →
      (Surveyor.main env a).1.countP isOpenEv = 0 ∧
      (Surveyor.main env a).1.countP isCloseEv = 0) ∧
    ((Surveyor.main env a).2 = MRes.uncaught →
      (Surveyor.main env a).1.countP isOpenEv = 1 ∧
      (Surveyor.main env a).1.countP isCloseEv = 0) := by
  have hbody : ∀ (e : List Ev), e.all bodyEv = true →
      e.countP isOpenEv = 0 ∧ e.countP isCloseEv = 0 := by
    intro e he
    rw [List.all_eq_true] at he
    constructor <;> rw [List.countP_eq_zero] <;> intro x hx <;>
      have hb := he x hx <;> cases x <;> simp_all [bodyEv, isOpenEv, isCloseEv]
  rcases main_cases env a with hm | hm | ⟨e, he, hm⟩ | ⟨e, he, hm⟩ <;> rw [hm]
  · exact ⟨by decide, fun h => absurd h (by decide),
      fun c h1 h2 => by decide, fun h => absurd h (by decide)⟩
  · exact ⟨by decide, fun h => absurd h (by decide),
      fun c h1 h2 => by decide, fun h => absurd h (by decide)⟩
  · obtain ⟨hz1, hz2⟩ := hbody e he
    refine ⟨?_, fun h => MRes.noConfusion h,
      fun c h1 h2 => MRes.noConfusion h1, fun _ => ⟨?_, ?_⟩⟩
    · simp [List.countP_append, hz1, List.countP_cons, isOpenEv]
    · simp [List.countP_append, hz1, List.countP_cons, isOpenEv]
    · simp [List.countP_append, hz2, List.countP_cons, isCloseEv]
  · obtain ⟨hz1, hz2⟩ := hbody e he
    refine ⟨?_, fun _ => ⟨?_, ?_, ?_⟩,
      fun c h1 h2 => absurd (MRes.exit.inj h1).symm h2,
      fun h => MRes.noConfusion h⟩
    · simp [List.countP_append, hz1, List.countP_cons, isOpenEv, isCloseEv]
    · simp [List.countP_append, hz1, List.countP_cons, isOpenEv, isCloseEv]
    · simp [List.countP_append, hz2, List.countP_cons, isOpenEv, isCloseEv]
    · rw [List.getLast?_concat]

/-- Witness for C9 (amended): a normal run opens and closes the handle
exactly once and ends on the close; the exception-terminated run of the
counterexample environment opens it and never closes it. -/
theorem C9_handle_lifecycle_witness :
    ((Surveyor.main witEnv (argsQuery "q")).2 = MRes.exit 0 ∧
      (Surveyor.main witEnv (argsQuery "q")).1.countP isOpenEv = 1 ∧
      (Surveyor.main witEnv (argsQuery "q")).1.countP isCloseEv = 1 ∧
      (Surveyor.main witEnv (argsQuery "q")).1.getLast? = some Ev.closeOut) ∧
    ((Surveyor.main witEnvX (argsQuery "q2")).2 = MRes.uncaught ∧
      (Surveyor.main witEnvX (argsQuery "q2")).1.countP isOpenEv = 1 ∧
      (Surveyor.main witEnvX (argsQuery "q2")).1.countP isCloseEv = 0) := by
  constructor
  · exact ⟨by decide,
      (C9_handle_lifecycle witEnv (argsQuery "q")).2.1 (by decide)⟩
  · exact ⟨by decide,
      (C9_handle_lifecycle witEnvX (argsQuery "q2")).2.2.2 (by decide)⟩

/-- Is the event an argparse error report? -/
def isArgErrorEv : Ev → Bool
  | .argError => true
  | _ => false

lemma body_no_argError (e : List Ev) (he : e.all bodyEv = true) :
    e.any isArgErrorEv = false := by
  rw [List.all_eq_true] at he
  rw [List.any_eq_false]
  intro x hx
  have := he x hx
  cases x <;> simp_all [bodyEv, isArgErrorEv]


/-- `--query <q> --hostname <h>` on the backend selected by `cbc`. -/
def argsQueryHostC (cbc : Bool) (q h : String) : Args :=
  { cbc := cbc, translate := false, days := none, minutes := none,
    deffile := none, defdir := none, query := some q, iocfile := none,
    hostname := some h, username := none, ioctype := none }

/-- `--query <q> --username <u>` on the backend selected by `cbc`. -/
def argsQueryUserC (cbc : Bool) (q u : String) : Args :=
  { cbc := cbc, translate := false, days := none, minutes := none,
    deffile := none, defdir := none, query := some q, iocfile := none,
    hostname := none, username := some u, ioctype := none }

/-- `--deffile <file> --hostname <h> --username <u>` on the backend
selected by `cbc`. -/
def argsDefHU (cbc : Bool) (file h u : String) : Args :=
  { cbc := cbc, translate := false, days := none, minutes := none,
    deffile := some file, defdir := none, query := none, iocfile := none,
    hostname := some h, username := some u, ioctype := none }

/-- `--defdir <dir> --hostname <h> --username <u>` on the backend
selected by `cbc`. -/
def argsDefdirHU (cbc : Bool) (dir h u : String) : Args :=
  { cbc := cbc, translate := false, days := none, minutes := none,
    deffile := none, defdir := some dir, query := none, iocfile := none,
    hostname := some h, username := some u, ioctype := none }

/-- `--iocfile <file> --ioctype <t> --hostname <h> --username <u>` on
the backend selected by `cbc`. -/
def argsIocHU (cbc : Bool) (file ioct h u : String) : Args :=
  { cbc := cbc, translate := false, days := none, minutes := none,
    deffile := none, defdir := none, query := none, iocfile := some file,
    hostname := some h, username := some u, ioctype := some ioct }

lemma glue (X k lit u : String) (hlit : ((" " ++ k) ++ ":") = lit) :
    X ++ " " ++ k ++ ":" ++ u = X ++ (lit ++ u) := by
  rw [← hlit]
  simp [String.append_assoc]

/-- If the parsed namespace carries no raw query, `main` never reports a
conflict: no argparse error event can appear in its trace, whatever the
backend, the filesystem or the query outcomes. -/
lemma main_no_argError (env : Env) (a : Args)
    (hsel : ¬selectorCount a ≠ 1)
    (hioc : ¬(a.iocfile.isSome && !a.ioctype.isSome) = true)
    (hq : a.query = none) :
    (Surveyor.main env a).1.any isArgErrorEv = false := by
  have h3 : ¬(truthyStr a.hostname && (truthyStr a.query &&
      strContains (a.query.getD "") (hostKey a.cbc))) = true := by
    simp [hq, truthyStr]
  have h4 : ¬(truthyStr a.username && (truthyStr a.query &&
      strContains (a.query.getD "") (userKey a.cbc))) = true := by
    simp [hq, truthyStr]
  cases hdf : defFilesStage env a with
  | error r =>
    have hr := defFilesStage_error env a r hdf
    have hm : Surveyor.main env a = ([Ev.fatalError], MRes.exit 1) := by
      simp only [Surveyor.main, if_neg hsel, Bool.and_assoc, if_neg hioc,
        if_neg h3, if_neg h4, hdf, hr]
    rw [hm]
    decide
  | ok files =>
    have hm : Surveyor.main env a =
        Surveyor.mainTail env a (Surveyor.queryBase env a) files := by
      simp only [Surveyor.main, if_neg hsel, Bool.and_assoc, if_neg hioc,
        if_neg h3, if_neg h4, hdf]
    rcases mainTail_shape env a (Surveyor.queryBase env a) files with
      ⟨e, he, heq⟩ | ⟨e, he, heq⟩ <;> rw [hm, heq] <;>
      simp [List.any_append, body_no_argError e he, isArgErrorEv]

/-- Claim C10: the --hostname (resp. --username) conflict rejection
fires exactly when the active backend's host (resp. user) field name —
hostname/username on-prem, device_name/process_username on the cloud —
occurs as a substring anywhere in the raw --query string (so an on-prem
query containing `parent_hostname:` is rejected though the `hostname`
field itself is absent); and in definition-file, definition-directory
and indicator-file modes no conflict check runs at all on either
backend, the host and user constraints being appended to the base
fragment of every query unconditionally. -/
theorem C10_conflict_scope :
    (hostKey true = "device_name" ∧ hostKey false = "hostname" ∧
      userKey true = "process_username" ∧ userKey false = "username") ∧
    (∀ (cbc : Bool) (env : Env) (q h : String), ¬q.isEmpty = true →
      ¬h.isEmpty = true →
      ((Surveyor.main env (argsQueryHostC cbc q h)).1.any isArgErrorEv = true ↔
        strContains q (hostKey cbc) = true)) ∧
    (∀ (cbc : Bool) (env : Env) (q u : String), ¬q.isEmpty = true →
      ¬u.isEmpty = true →
      ((Surveyor.main env (argsQueryUserC cbc q u)).1.any isArgErrorEv = true ↔
        strContains q (userKey cbc) = true)) ∧
    (∀ (cbc : Bool) (env : Env) (file h u : String),
      (Surveyor.main env (argsDefHU cbc file h u)).1.any isArgErrorEv = false) ∧
    (∀ (cbc : Bool) (env : Env) (dir h u : String),
      (Surveyor.main env (argsDefdirHU cbc dir h u)).1.any isArgErrorEv
        = false) ∧
    (∀ (cbc : Bool) (env : Env) (file ioct h u : String),
      (Surveyor.main env (argsIocHU cbc file ioct h u)).1.any isArgErrorEv
        = false) ∧
    (∀ (env : Env) (file h u : String), ¬h.isEmpty = true → ¬u.isEmpty = true →
      Surveyor.queryBase env (argsDefHU false file h u) =
        (" hostname:" ++ h) ++ (" username:" ++ u) ∧
      Surveyor.queryBase env (argsDefHU true file h u) =
        (" device_name:" ++ h) ++ (" process_username:" ++ u)) ∧
    (∀ (env : Env) (file h u : String), ¬file.isEmpty = true →
      ¬h.isEmpty = true → ¬u.isEmpty = true → env.fsExists file = true →
      (∀ q, env.outcome q = Outcome.ok) →
      Surveyor.main env (argsDefHU false file h u) =
        ([Ev.openOut, Ev.header] ++
          (env.readDef file).flatMap
            (progBlock env ((" hostname:" ++ h) ++ (" username:" ++ u))
              (pySplitextRoot (pyBasename file))) ++
          [Ev.closeOut], MRes.exit 0)) ∧
    (∀ (env : Env) (dir h u : String), ¬dir.isEmpty = true →
      ¬h.isEmpty = true → ¬u.isEmpty = true → env.fsExists dir = true →
      (∀ q, env.outcome q = Outcome.ok) →
      Surveyor.main env (argsDefdirHU false dir h u) =
        ([Ev.openOut, Ev.header] ++
          (env.walkJson dir).flatMap (fun f => (env.readDef f).flatMap
            (progBlock env ((" hostname:" ++ h) ++ (" username:" ++ u))
              (pySplitextRoot (pyBasename f)))) ++
          [Ev.closeOut], MRes.exit 0)) ∧
    (∀ (env : Env) (file ioct h u : String), ¬file.isEmpty = true →
      ¬h.isEmpty = true → ¬u.isEmpty = true →
      (∀ q, env.outcome q = Outcome.ok) →
      Surveyor.main env (argsIocHU false file ioct h u) =
        ([Ev.openOut, Ev.header] ++
          (env.readLines file).flatMap
            (iocBlock env ((" hostname:" ++ h) ++ (" username:" ++ u)) ioct) ++
          [Ev.closeOut], MRes.exit 0)) := by
  refine ⟨⟨rfl, rfl, rfl, rfl⟩, ?_, ?_, ?_, ?_, ?_, ?_, ?_, ?_, ?_⟩
  · intro cbc env q h hq hh
    have hq2 : q.isEmpty = false := by simpa using hq
    have hh2 : h.isEmpty = false := by simpa using hh
    by_cases hs : strContains q (hostKey cbc) = true
    · have hm : Surveyor.main env (argsQueryHostC cbc q h) =
          ([Ev.argError], MRes.exit 2) := by
        simp [Surveyor.main, argsQueryHostC, selectorCount, truthyStr,
          hq2, hh2, hs]
      rw [hm]
      simp [hs, isArgErrorEv]
    · have hs2 : strContains q (hostKey cbc) = false := by simpa using hs
      have hm : Surveyor.main env (argsQueryHostC cbc q h) =
          Surveyor.mainTail env (argsQueryHostC cbc q h)
            (Surveyor.queryBase env (argsQueryHostC cbc q h)) [] := by
        simp [Surveyor.main, argsQueryHostC, selectorCount, truthyStr,
          defFilesStage, hq2, hh2, hs2]
      rcases mainTail_shape env (argsQueryHostC cbc q h)
          (Surveyor.queryBase env (argsQueryHostC cbc q h)) [] with
        ⟨e, he, heq⟩ | ⟨e, he, heq⟩ <;>
        rw [hm, heq] <;>
        simp [hs2, List.any_append, body_no_argError e he, isArgErrorEv]
  · intro cbc env q u hq hu
    have hq2 : q.isEmpty = false := by simpa using hq
    have hu2 : u.isEmpty = false := by simpa using hu
    by_cases hs : strContains q (userKey cbc) = true
    · have hm : Surveyor.main env (argsQueryUserC cbc q u) =
          ([Ev.argError], MRes.exit 2) := by
        simp [Surveyor.main, argsQueryUserC, selectorCount, truthyStr,
          hq2, hu2, hs]
      rw [hm]
      simp [hs, isArgErrorEv]
    · have hs2 : strContains q (userKey cbc) = false := by simpa using hs
      have hm : Surveyor.main env (argsQueryUserC cbc q u) =
          Surveyor.mainTail env (argsQueryUserC cbc q u)
            (Surveyor.queryBase env (argsQueryUserC cbc q u)) [] := by
        simp [Surveyor.main, argsQueryUserC, selectorCount, truthyStr,
          defFilesStage, hq2, hu2, hs2]
      rcases mainTail_shape env (argsQueryUserC cbc q u)
          (Surveyor.queryBase env (argsQueryUserC cbc q u)) [] with
        ⟨e, he, heq⟩ | ⟨e, he, heq⟩ <;>
        rw [hm, heq] <;>
        simp [hs2, List.any_append, body_no_argError e he, isArgErrorEv]
  · intro cbc env file h u
    exact main_no_argError env (argsDefHU cbc file h u)
      (by simp [selectorCount, argsDefHU])
      (by simp [argsDefHU]) rfl
  · intro cbc env dir h u
    exact main_no_argError env (argsDefdirHU cbc dir h u)
      (by simp [selectorCount, argsDefdirHU])
      (by simp [argsDefdirHU]) rfl
  · intro cbc env file ioct h u
    exact main_no_argError env (argsIocHU cbc file ioct h u)
      (by simp [selectorCount, argsIocHU])
      (by simp [argsIocHU]) rfl
  · intro env file h u hh hu
    have hh2 : h.isEmpty = false := by simpa using hh
    have hu2 : u.isEmpty = false := by simpa using hu
    constructor
    · have h0 : Surveyor.queryBase env (argsDefHU false file h u) =
          " hostname:" ++ h ++ " " ++ "username" ++ ":" ++ u := by
        simp [Surveyor.queryBase, argsDefHU, truthyStr, timeFragment,
          truthyInt, hostKey, userKey, hh2, hu2]
      rw [h0, glue (" hostname:" ++ h) "username" " username:" u (by decide)]
    · have h0 : Surveyor.queryBase env (argsDefHU true file h u) =
          " device_name:" ++ h ++ " " ++ "process_username" ++ ":" ++ u := by
        simp [Surveyor.queryBase, argsDefHU, truthyStr, timeFragment,
          truthyInt, hostKey, userKey, hh2, hu2]
      rw [h0, glue (" device_name:" ++ h) "process_username"
        " process_username:" u (by decide)]
  · intro env file h u hf hh hu hex hok
    have hf2 : file.isEmpty = false := by simpa using hf
    have hh2 : h.isEmpty = false := by simpa using hh
    have hu2 : u.isEmpty = false := by simpa using hu
    have hqb : Surveyor.queryBase env (argsDefHU false file h u) =
        (" hostname:" ++ h) ++ (" username:" ++ u) := by
      have h0 : Surveyor.queryBase env (argsDefHU false file h u) =
          " hostname:" ++ h ++ " " ++ "username" ++ ":" ++ u := by
        simp [Surveyor.queryBase, argsDefHU, truthyStr, timeFragment,
          truthyInt, hostKey, userKey, hh2, hu2]
      rw [h0, glue (" hostname:" ++ h) "username" " username:" u (by decide)]
    have hqb2 := hqb
    simp only [argsDefHU] at hqb2
    simp [Surveyor.main, Surveyor.mainTail, hqb2, argsDefHU, selectorCount,
      truthyStr, timeFragment, truthyInt, defFilesStage, mainBody, hf2, hh2,
      hu2, hex,
      defLoop_ok env false ((" hostname:" ++ h) ++ (" username:" ++ u)) hok]
  · intro env dir h u hd hh hu hex hok
    have hd2 : dir.isEmpty = false := by simpa using hd
    have hh2 : h.isEmpty = false := by simpa using hh
    have hu2 : u.isEmpty = false := by simpa using hu
    have hqb : Surveyor.queryBase env (argsDefdirHU false dir h u) =
        (" hostname:" ++ h) ++ (" username:" ++ u) := by
      have h0 : Surveyor.queryBase env (argsDefdirHU false dir h u) =
          " hostname:" ++ h ++ " " ++ "username" ++ ":" ++ u := by
        simp [Surveyor.queryBase, argsDefdirHU, truthyStr, timeFragment,
          truthyInt, hostKey, userKey, hh2, hu2]
      rw [h0, glue (" hostname:" ++ h) "username" " username:" u (by decide)]
    have hqb2 := hqb
    simp only [argsDefdirHU] at hqb2
    simp [Surveyor.main, Surveyor.mainTail, hqb2, argsDefdirHU, selectorCount,
      truthyStr, timeFragment, truthyInt, defFilesStage, mainBody, hd2, hh2,
      hu2, hex,
      defLoop_ok env false ((" hostname:" ++ h) ++ (" username:" ++ u)) hok]
  · intro env file ioct h u hf hh hu hok
    have hf2 : file.isEmpty = false := by simpa using hf
    have hh2 : h.isEmpty = false := by simpa using hh
    have hu2 : u.isEmpty = false := by simpa using hu
    have hqb : Surveyor.queryBase env (argsIocHU false file ioct h u) =
        (" hostname:" ++ h) ++ (" username:" ++ u) := by
      have h0 : Surveyor.queryBase env (argsIocHU false file ioct h u) =
          " hostname:" ++ h ++ " " ++ "username" ++ ":" ++ u := by
        simp [Surveyor.queryBase, argsIocHU, truthyStr, timeFragment,
          truthyInt, hostKey, userKey, hh2, hu2]
      rw [h0, glue (" hostname:" ++ h) "username" " username:" u (by decide)]
    have hqb2 := hqb
    simp only [argsIocHU] at hqb2
    simp [Surveyor.main, Surveyor.mainTail, hqb2, argsIocHU, selectorCount,
      truthyStr, timeFragment, truthyInt, defFilesStage, mainBody, hf2, hh2,
      hu2,
      iocLoop_ok env false ((" hostname:" ++ h) ++ (" username:" ++ u))
        ioct hok]

/-- Environment for the defdir part of the C10 witness: walking the
directory finds one definition file `d/a.json`. -/
def witEnvW : Env := { witEnv with walkJson := fun _ => ["d/a.json"] }

/-- Witness for C10: on-prem, a query containing only `parent_hostname:`
is rejected together with --hostname; on the cloud, a query containing
`process_username:` is rejected together with --username; and deffile,
defdir and iocfile runs with both --hostname and --username proceed
without any conflict check, every search carrying
` hostname:host1 username:alice` appended. -/
theorem C10_conflict_scope_witness :
    (¬("parent_hostname:abc".isEmpty = true) ∧ ¬("host1".isEmpty = true) ∧
      strContains "parent_hostname:abc" (hostKey false) = true ∧
      strContains "process_username:bob" (userKey true) = true) ∧
    ((Surveyor.main witEnv
        (argsQueryHostC false "parent_hostname:abc" "host1")).1.any
      isArgErrorEv = true) ∧
    ((Surveyor.main witEnv
        (argsQueryUserC true "process_username:bob" "alice")).1.any
      isArgErrorEv = true) ∧
    Surveyor.main witEnv (argsDefHU false "defs/browsers.json" "host1" "alice")
      = ([Ev.openOut, Ev.header,
          Ev.search
            "(process_name:chrome.exe OR process_name:chrome2.exe) hostname:host1 username:alice",
          Ev.rows {("host", "user", "p", "c")} "chrome" "browsers",
          Ev.closeOut], MRes.exit 0) ∧
    Surveyor.main witEnvW (argsDefdirHU false "d" "host1" "alice") =
      ([Ev.openOut, Ev.header,
        Ev.search
          "(process_name:chrome.exe OR process_name:chrome2.exe) hostname:host1 username:alice",
        Ev.rows {("host", "user", "p", "c")} "chrome" "a",
        Ev.closeOut], MRes.exit 0) ∧
    Surveyor.main witEnv (argsIocHU false "iocs.txt" "ipaddr" "host1" "alice")
      = ([Ev.openOut, Ev.header,
          Ev.search "ipaddr:1.2.3.4 hostname:host1 username:alice",
          Ev.rows {("host", "user", "p", "c")} "1.2.3.4" "ioc",
          Ev.search "ipaddr:5.6.7.8 hostname:host1 username:alice",
          Ev.rows {("host", "user", "p", "c")} "5.6.7.8" "ioc",
          Ev.closeOut], MRes.exit 0) := by
  refine ⟨⟨by decide, by decide, by decide, by decide⟩, ?_, ?_, ?_, ?_, ?_⟩
  · exact (C10_conflict_scope.2.1 false witEnv "parent_hostname:abc" "host1"
      (by decide) (by decide)).mpr (by decide)
  · exact (C10_conflict_scope.2.2.1 true witEnv "process_username:bob" "alice"
      (by decide) (by decide)).mpr (by decide)
  · rw [C10_conflict_scope.2.2.2.2.2.2.2.1 witEnv "defs/browsers.json"
      "host1" "alice" (by decide) (by decide) (by decide) rfl (fun q => rfl)]
    have hsrc : pySplitextRoot (pyBasename "defs/browsers.json") =
        "browsers" := by rfl
    rw [hsrc]
    decide
  · rw [C10_conflict_scope.2.2.2.2.2.2.2.2.1 witEnvW "d" "host1" "alice"
      (by decide) (by decide) (by decide) rfl (fun q => rfl)]
    have hw : witEnvW.walkJson "d" = ["d/a.json"] := rfl
    have hsrc : pySplitextRoot (pyBasename "d/a.json") = "a" := by rfl
    rw [hw]
    simp only [List.flatMap_cons, List.flatMap_nil, hsrc]
    decide
  · rw [C10_conflict_scope.2.2.2.2.2.2.2.2.2 witEnv "iocs.txt" "ipaddr"
      "host1" "alice" (by decide) (by decide) (by decide) (fun q => rfl)]
    decide
